import Mathlib

/-
Verification development for the ensemble-restraint plugin
(src/src/cpp/ensemblepotential.cpp).

Shallow embedding notes.
Machine doubles are modelled as exact rationals.  The transcendental
library functions the C++ code calls (exp, sqrt) and the constant M_PI
are modelled as explicit parameters (rexp, rsqrt, piQ): every function
below is parametric in them, and theorems either hold for arbitrary
choices or carry the property of the real function they need (for
example, sqrt 0 = 0).  All container code (std::vector) is modelled
with List.  The 1 x nBins Matrix objects used for window histograms
are modelled by their flat data vector, a List of length nBins.
-/

namespace plugin

/-- A gmx::Vector: three cartesian components. -/
structure Vec3 where
  x : ℚ
  y : ℚ
  z : ℚ
deriving DecidableEq, Repr

/-- Componentwise difference, `v - v0` on gmx::Vector. -/
def vsub (a b : Vec3) : Vec3 := ⟨a.x - b.x, a.y - b.y, a.z - b.z⟩

/-- Dot product on gmx::Vector. -/
def vdot (a b : Vec3) : ℚ := a.x * b.x + a.y * b.y + a.z * b.z

/-- Scalar times vector, as in `f / norm(rdiff) * rdiff`. -/
def smul (c : ℚ) (v : Vec3) : Vec3 := ⟨c * v.x, c * v.y, c * v.z⟩

/-- The zero vector: value of a default-constructed force output. -/
def vzero : Vec3 := ⟨0, 0, 0⟩

/-- BlurToGrid::operator() from ensemblepotential.cpp.
For each bin i of the output grid (the grid size fixes nbins), the code
accumulates, over the input distances,
`normalization * exp(-(bin_x - distance)^2 * denominator)`
with `bin_x = i * dx`, `dx = (max_dist - min_dist)/nbins`,
`denominator = 1/(2 sigma^2)` and
`normalization = 1/(num_samples * sqrt(2 pi sigma^2))`.
The output list has the same length as the input grid, every entry
being overwritten, exactly as `grid->at(i) = bin_value`. -/
def blurToGrid (rexp rsqrt : ℚ → ℚ) (piQ min_dist max_dist sigma : ℚ)
    (distances grid : List ℚ) : List ℚ :=
  (List.range grid.length).map (fun (i : ℕ) =>
    distances.foldl
      (fun bin_value distance =>
        bin_value +
          (1 / ((distances.length : ℚ) * rsqrt (2 * piQ * sigma * sigma))) *
            rexp ((-(((i : ℚ) * ((max_dist - min_dist) / (grid.length : ℚ)) - distance) *
                      ((i : ℚ) * ((max_dist - min_dist) / (grid.length : ℚ)) - distance))) *
                  (1 / (2 * sigma * sigma))))
      0)

/-- The member state of class EnsembleHarmonic, field for field. -/
structure EnsembleHarmonic where
  nBins : ℕ
  minDist : ℚ
  maxDist : ℚ
  binWidth : ℚ
  histogram : List ℚ
  experimental : List ℚ
  nSamples : ℕ
  currentSample : ℕ
  samplePeriod : ℚ
  nextSampleTime : ℚ
  distanceSamples : List ℚ
  nWindows : ℕ
  currentWindow : ℕ
  windowUpdatePeriod : ℚ
  nextWindowUpdateTime : ℚ
  windows : List (List ℚ)
  k : ℚ
  sigma : ℚ
deriving Repr

/-- The EnsembleHarmonic constructor: all counters zero, histogram and
sample buffer zero-filled at their fixed sizes, first thresholds equal
to one period, window list empty. -/
def EnsembleHarmonic.init (nbins : ℕ) (min_dist max_dist : ℚ)
    (experimental : List ℚ) (nsamples : ℕ) (sample_period : ℚ)
    (nwindows : ℕ) (window_update_period : ℚ) (K sigma : ℚ) :
    EnsembleHarmonic :=
  { nBins := nbins
    minDist := min_dist
    maxDist := max_dist
    binWidth := (max_dist - min_dist) / (nbins : ℚ)
    histogram := List.replicate nbins 0
    experimental := experimental
    nSamples := nsamples
    currentSample := 0
    samplePeriod := sample_period
    nextSampleTime := sample_period
    distanceSamples := List.replicate nsamples 0
    nWindows := nwindows
    currentWindow := 0
    windowUpdatePeriod := window_update_period
    nextWindowUpdateTime := window_update_period
    windows := []
    k := K
    sigma := sigma }

/-- The sampling branch of EnsembleHarmonic::callback: when
`t >= nextSampleTime_`, the code runs
`distanceSamples_[currentSample_++] = R; nextSampleTime_ += samplePeriod_;`
with `R = sqrt(dot(rdiff, rdiff))`, `rdiff = v - v0`.  The write uses
unchecked `operator[]`; an index at or past nSamples is out of bounds in
the C++ (modelled here by List.set, which leaves the list unchanged when
the index is out of range). -/
def sampleStep (rsqrt : ℚ → ℚ) (s : EnsembleHarmonic) (v v0 : Vec3) (t : ℚ) :
    EnsembleHarmonic :=
  if s.nextSampleTime ≤ t then
    { s with
        distanceSamples :=
          s.distanceSamples.set s.currentSample (rsqrt (vdot (vsub v v0) (vsub v v0)))
        currentSample := s.currentSample + 1
        nextSampleTime := s.nextSampleTime + s.samplePeriod }
  else s

/-- One iteration of the inner accumulation loop of the histogram
rebuild in EnsembleHarmonic::callback:
`histogram_.at(i) += window->vector()->at(i) - experimental_.at(i);`
executed for every index in the given list (the code iterates i over
`[0, window->cols())`, i.e. `List.range window.length`). -/
def setLoop (window experimental : List ℚ) : List ℚ → List ℕ → List ℚ
  | h, [] => h
  | h, i :: rest =>
      setLoop window experimental
        (h.set i (h.getD i 0 + (window.getD i 0 - experimental.getD i 0))) rest

/-- The per-window accumulation loop: `for (i = 0; i < window->cols(); ++i)`. -/
def applyWindow (window experimental : List ℚ) (h : List ℚ) : List ℚ :=
  setLoop window experimental h (List.range window.length)

/-- The histogram rebuild at the end of a window update: first every bin
of `histogram_` is zeroed, then each window in `windows_` is accumulated
with the experimental distribution subtracted inside the loop body. -/
def rebuildHistogram (windows : List (List ℚ)) (experimental hist : List ℚ) :
    List ℚ :=
  windows.foldl (fun h w => applyWindow w experimental h)
    (hist.map (fun _ => (0 : ℚ)))

/-- The local (single-replica) density estimate built during a window
update: `blur(distanceSamples_, new_window->vector())`, where new_window
is a freshly allocated 1 x nBins matrix (so the grid passed to the blur
is a zero list of length nBins). -/
def localEstimate (rexp rsqrt : ℚ → ℚ) (piQ : ℚ) (s : EnsembleHarmonic) :
    List ℚ :=
  blurToGrid rexp rsqrt piQ s.minDist s.maxDist s.sigma s.distanceSamples
    (List.replicate s.nBins 0)

/-- The result of `ensemble.reduce(*new_window, temp_window.get())`: the
ensemble reduction function applied to the local estimate.  In the C++
this value is written into temp_window, which is destroyed at the end of
the update without ever being read again. -/
def reducedEstimate (rexp rsqrt : ℚ → ℚ) (piQ : ℚ)
    (reduceFn : List ℚ → List ℚ) (s : EnsembleHarmonic) : List ℚ :=
  reduceFn (localEstimate rexp rsqrt piQ s)

/-- The window-update branch of EnsembleHarmonic::callback, returning the
updated state together with the window histogram appended on this call
(none when the branch does not fire).  When `t >= nextWindowUpdateTime_`:
the oldest window is erased iff `windows_.size() == nWindows_`; the blur
of the sample buffer is built into new_window; `ensemble.reduce` writes
the reduced histogram into temp_window, whose storage is then discarded,
so the histogram appended to `windows_` by `emplace_back(move(new_window))`
is the local estimate; the bias histogram is rebuilt from `windows_`;
`nextWindowUpdateTime_ += windowUpdatePeriod_`; the window counter is
incremented; the sample cursor is reset and
`nextSampleTime_ = t + samplePeriod_`. -/
def windowStepAux (rexp rsqrt : ℚ → ℚ) (piQ : ℚ)
    (_reduceFn : List ℚ → List ℚ) (s : EnsembleHarmonic) (t : ℚ) :
    EnsembleHarmonic × Option (List ℚ) :=
  if s.nextWindowUpdateTime ≤ t then
    ({ s with
        windows :=
          (if s.windows.length = s.nWindows then s.windows.tail else s.windows)
            ++ [localEstimate rexp rsqrt piQ s]
        histogram :=
          rebuildHistogram
            ((if s.windows.length = s.nWindows then s.windows.tail else s.windows)
              ++ [localEstimate rexp rsqrt piQ s])
            s.experimental s.histogram
        nextWindowUpdateTime := s.nextWindowUpdateTime + s.windowUpdatePeriod
        currentWindow := s.currentWindow + 1
        currentSample := 0
        nextSampleTime := t + s.samplePeriod },
      some (localEstimate rexp rsqrt piQ s))
  else (s, none)

/-- EnsembleHarmonic::callback: the sampling branch followed by the
window-update branch, both guarded by their own time threshold.  The
reduceFn argument models the ensemble reduction function held by the
EnsembleResources passed to the callback; as in windowStepAux, its
result is discarded by the C++ code. -/
def callback (rexp rsqrt : ℚ → ℚ) (piQ : ℚ) (reduceFn : List ℚ → List ℚ)
    (s : EnsembleHarmonic) (v v0 : Vec3) (t : ℚ) : EnsembleHarmonic :=
  (windowStepAux rexp rsqrt piQ reduceFn (sampleStep rsqrt s v v0 t) t).1

/-- EnsembleHarmonic::calculate: force output of one evaluation.
Zero unless `windows_.size() == nWindows_` and `R != 0`; otherwise the
scalar force f follows the three regimes of the code (linear beyond
maxDist, linear below minDist, histogram-weighted Gaussian sum in
range), and the output force is `f / norm(rdiff) * rdiff`.  The energy
member of the output is never set by the code and is not modelled. -/
def calculate (rexp rsqrt : ℚ → ℚ) (piQ : ℚ) (s : EnsembleHarmonic)
    (v v0 : Vec3) (_t : ℚ) : Vec3 :=
  if s.windows.length = s.nWindows then
    if rsqrt (vdot (vsub v v0) (vsub v v0)) ≠ 0 then
      smul
        ((if rsqrt (vdot (vsub v v0) (vsub v v0)) > s.maxDist then
            s.k * (s.maxDist - rsqrt (vdot (vsub v v0) (vsub v v0)))
          else if rsqrt (vdot (vsub v v0) (vsub v v0)) < s.minDist then
            -s.k * (s.minDist - rsqrt (vdot (vsub v v0) (vsub v v0)))
          else
            -s.k *
              (List.range s.histogram.length).foldl
                (fun (f_scal : ℚ) (n : ℕ) =>
                  f_scal +
                    s.histogram.getD n 0 *
                      ((n : ℚ) * s.binWidth - rsqrt (vdot (vsub v v0) (vsub v v0))) /
                      (rsqrt (2 * piQ) * s.sigma ^ 3) *
                      rexp ((-(1 / 2 : ℚ)) *
                        ((((n : ℚ) * s.binWidth - rsqrt (vdot (vsub v v0) (vsub v v0))) /
                            s.sigma) ^ 2)))
                0) /
          rsqrt (vdot (vsub v v0) (vsub v v0)))
        (vsub v v0)
    else vzero
  else vzero

/-- A whole run: callback applied over a list of (v, v0, t) inputs. -/
def run (rexp rsqrt : ℚ → ℚ) (piQ : ℚ) (reduceFn : List ℚ → List ℚ) :
    EnsembleHarmonic → List (Vec3 × Vec3 × ℚ) → EnsembleHarmonic
  | s, [] => s
  | s, p :: ps =>
      run rexp rsqrt piQ reduceFn (callback rexp rsqrt piQ reduceFn s p.1 p.2.1 p.2.2) ps

/-- The same run, also collecting the list of window histograms produced
by the window-update cycles that fired, in order of production. -/
def runTrace (rexp rsqrt : ℚ → ℚ) (piQ : ℚ) (reduceFn : List ℚ → List ℚ) :
    EnsembleHarmonic → List (Vec3 × Vec3 × ℚ) →
      EnsembleHarmonic × List (List ℚ)
  | s, [] => (s, [])
  | s, p :: ps =>
      let r := windowStepAux rexp rsqrt piQ reduceFn
        (sampleStep rsqrt s p.1 p.2.1 p.2.2) p.2.2
      let rest := runTrace rexp rsqrt piQ reduceFn r.1 ps
      (rest.1, r.2.toList ++ rest.2)

/-- Concrete stand-in for exp used by closed evaluations: constantly 1. -/
def rexpC : ℚ → ℚ := fun _ => 1

/-- Concrete stand-in for sqrt used by closed evaluations: the identity,
which satisfies rsqrt 0 = 0 and rsqrt 1 = 1. -/
def rsqrtC : ℚ → ℚ := fun x => x

/-- Concrete stand-in for M_PI used by closed evaluations, chosen so that
2 * piC = 1 keeps the arithmetic exact. -/
def piC : ℚ := 1 / 2

/-- Identity reduction function (a single-member ensemble). -/
def reduceC : List ℚ → List ℚ := fun w => w

/-- Doubling reduction function: receive = 2 * send, simulating two
identical replicas. -/
def reduce2 : List ℚ → List ℚ := fun w => w.map (fun y => 2 * y)

/-- Concrete current position for closed evaluations. -/
def vC : Vec3 := ⟨1, 0, 0⟩

/-- Concrete reference position for closed evaluations. -/
def v0C : Vec3 := ⟨0, 0, 0⟩

/-- A concrete engine state whose window history is full, used by closed
evaluations of the force formula. -/
def sC3 : EnsembleHarmonic :=
  { nBins := 1
    minDist := 0
    maxDist := 10
    binWidth := 10
    histogram := [1]
    experimental := [0]
    nSamples := 1
    currentSample := 0
    samplePeriod := 1
    nextSampleTime := 1
    distanceSamples := [0]
    nWindows := 1
    currentWindow := 1
    windowUpdatePeriod := 1
    nextWindowUpdateTime := 1
    windows := [[1]]
    k := 1
    sigma := 1 }

/-- A concrete engine state with one stored window, a free slot in the
window history, and a nonzero reference distribution, whose window
threshold has already been reached at time 0. -/
def sC1 : EnsembleHarmonic :=
  { nBins := 1
    minDist := 0
    maxDist := 1
    binWidth := 1
    histogram := [5]
    experimental := [2]
    nSamples := 1
    currentSample := 0
    samplePeriod := 1
    nextSampleTime := 5
    distanceSamples := [0]
    nWindows := 2
    currentWindow := 1
    windowUpdatePeriod := 1
    nextWindowUpdateTime := 0
    windows := [[3]]
    k := 1
    sigma := 1 }

/-! Helper lemmas about list loops. -/

theorem getD_set_ne (l : List ℚ) (i j : ℕ) (a : ℚ) (h : i ≠ j) :
    (l.set i a).getD j 0 = l.getD j 0 := by
  simp [List.getD_eq_getElem?_getD, List.getElem?_set_ne h]

theorem getD_set_self (l : List ℚ) (i : ℕ) (a : ℚ) (h : i < l.length) :
    (l.set i a).getD i 0 = a := by
  simp [List.getD_eq_getElem?_getD, List.getElem?_set_self h]

theorem foldl_add_eq_sum {α : Type} (f : α → ℚ) :
    ∀ (l : List α) (i : ℚ),
      l.foldl (fun acc a => acc + f a) i = i + (l.map f).sum := by
  intro l
  induction l with
  | nil => intro i; simp
  | cons a tl ih =>
      intro i
      simp only [List.foldl_cons, List.map_cons, List.sum_cons, ih]
      ring

theorem sum_map_sub_const {α : Type} (l : List α) (f : α → ℚ) (c : ℚ) :
    (l.map (fun a => f a - c)).sum = (l.map f).sum - (l.length : ℚ) * c := by
  induction l with
  | nil => simp
  | cons a tl ih =>
      simp only [List.map_cons, List.sum_cons, List.length_cons, ih]
      push_cast
      ring

theorem setLoop_length (w e : List ℚ) (l : List ℕ) :
    ∀ h : List ℚ, (setLoop w e h l).length = h.length := by
  induction l with
  | nil => intro h; rfl
  | cons i rest ih =>
      intro h
      simp only [setLoop]
      rw [ih, List.length_set]

theorem setLoop_getD_not_mem (w e : List ℚ) (l : List ℕ) :
    ∀ (h : List ℚ) (i : ℕ), i ∉ l →
      (setLoop w e h l).getD i 0 = h.getD i 0 := by
  induction l with
  | nil => intro h i _; rfl
  | cons j rest ih =>
      intro h i hi
      have hij : i ≠ j := fun he => hi (he ▸ List.mem_cons_self j rest)
      have hir : i ∉ rest := fun hm => hi (List.mem_cons_of_mem j hm)
      simp only [setLoop]
      rw [ih _ i hir, getD_set_ne _ _ _ _ (Ne.symm hij)]

theorem setLoop_getD_mem (w e : List ℚ) (l : List ℕ) :
    ∀ (h : List ℚ) (i : ℕ), l.Nodup → i ∈ l → i < h.length →
      (setLoop w e h l).getD i 0
        = h.getD i 0 + (w.getD i 0 - e.getD i 0) := by
  induction l with
  | nil => intro h i _ hi _; exact absurd hi (List.not_mem_nil i)
  | cons j rest ih =>
      intro h i hnd hi hlen
      have hnd' := List.nodup_cons.mp hnd
      rcases List.mem_cons.mp hi with he | hm
      · subst he
        simp only [setLoop]
        rw [setLoop_getD_not_mem w e rest _ i hnd'.1,
          getD_set_self _ _ _ hlen]
      · have hij : i ≠ j := fun he => hnd'.1 (he ▸ hm)
        simp only [setLoop]
        rw [ih _ i hnd'.2 hm (by rw [List.length_set]; exact hlen),
          getD_set_ne _ _ _ _ (Ne.symm hij)]

theorem applyWindow_length (w e h : List ℚ) :
    (applyWindow w e h).length = h.length :=
  setLoop_length w e (List.range w.length) h

theorem applyWindow_getD (w e h : List ℚ) (i : ℕ)
    (hw : i < w.length) (hh : i < h.length) :
    (applyWindow w e h).getD i 0
      = h.getD i 0 + (w.getD i 0 - e.getD i 0) :=
  setLoop_getD_mem w e (List.range w.length) h i (List.nodup_range _)
    (List.mem_range.mpr hw) hh

theorem foldl_applyWindow_getD (e : List ℚ) (n i : ℕ) (hi : i < n) :
    ∀ (ws : List (List ℚ)) (h : List ℚ),
      (∀ w ∈ ws, w.length = n) → h.length = n →
      (ws.foldl (fun h w => applyWindow w e h) h).getD i 0
        = h.getD i 0 + (ws.map (fun w => w.getD i 0 - e.getD i 0)).sum := by
  intro ws
  induction ws with
  | nil => intro h _ _; simp
  | cons w rest ih =>
      intro h hws hh
      have hw : w.length = n := hws w (List.mem_cons_self _ _)
      have hrest : ∀ x ∈ rest, x.length = n :=
        fun x hx => hws x (List.mem_cons_of_mem _ hx)
      simp only [List.foldl_cons, List.map_cons, List.sum_cons]
      rw [ih (applyWindow w e h) hrest
          (by rw [applyWindow_length]; exact hh),
        applyWindow_getD w e h i (by rw [hw]; exact hi)
          (by rw [hh]; exact hi)]
      ring

theorem map_const_zero_getD (l : List ℚ) (i : ℕ) :
    (l.map (fun _ => (0 : ℚ))).getD i 0 = 0 := by
  rw [List.getD_eq_getElem?_getD, List.getElem?_map]
  cases l[i]? <;> rfl

theorem blurToGrid_length (rexp rsqrt : ℚ → ℚ) (piQ a b c : ℚ)
    (distances grid : List ℚ) :
    (blurToGrid rexp rsqrt piQ a b c distances grid).length = grid.length := by
  unfold blurToGrid
  rw [List.length_map, List.length_range]

theorem localEstimate_length (rexp rsqrt : ℚ → ℚ) (piQ : ℚ)
    (s : EnsembleHarmonic) :
    (localEstimate rexp rsqrt piQ s).length = s.nBins := by
  unfold localEstimate
  rw [blurToGrid_length, List.length_replicate]

/-! Fields untouched by the sampling branch. -/

theorem sampleStep_nextWindowUpdateTime (rsqrt : ℚ → ℚ)
    (s : EnsembleHarmonic) (v v0 : Vec3) (t : ℚ) :
    (sampleStep rsqrt s v v0 t).nextWindowUpdateTime = s.nextWindowUpdateTime := by
  unfold sampleStep; split <;> rfl

theorem sampleStep_windows (rsqrt : ℚ → ℚ)
    (s : EnsembleHarmonic) (v v0 : Vec3) (t : ℚ) :
    (sampleStep rsqrt s v v0 t).windows = s.windows := by
  unfold sampleStep; split <;> rfl

theorem sampleStep_currentWindow (rsqrt : ℚ → ℚ)
    (s : EnsembleHarmonic) (v v0 : Vec3) (t : ℚ) :
    (sampleStep rsqrt s v v0 t).currentWindow = s.currentWindow := by
  unfold sampleStep; split <;> rfl

theorem sampleStep_nWindows (rsqrt : ℚ → ℚ)
    (s : EnsembleHarmonic) (v v0 : Vec3) (t : ℚ) :
    (sampleStep rsqrt s v v0 t).nWindows = s.nWindows := by
  unfold sampleStep; split <;> rfl

theorem sampleStep_nBins (rsqrt : ℚ → ℚ)
    (s : EnsembleHarmonic) (v v0 : Vec3) (t : ℚ) :
    (sampleStep rsqrt s v v0 t).nBins = s.nBins := by
  unfold sampleStep; split <;> rfl

theorem sampleStep_histogram (rsqrt : ℚ → ℚ)
    (s : EnsembleHarmonic) (v v0 : Vec3) (t : ℚ) :
    (sampleStep rsqrt s v v0 t).histogram = s.histogram := by
  unfold sampleStep; split <;> rfl

theorem sampleStep_experimental (rsqrt : ℚ → ℚ)
    (s : EnsembleHarmonic) (v v0 : Vec3) (t : ℚ) :
    (sampleStep rsqrt s v v0 t).experimental = s.experimental := by
  unfold sampleStep; split <;> rfl

theorem sampleStep_nSamples (rsqrt : ℚ → ℚ)
    (s : EnsembleHarmonic) (v v0 : Vec3) (t : ℚ) :
    (sampleStep rsqrt s v v0 t).nSamples = s.nSamples := by
  unfold sampleStep; split <;> rfl

theorem sampleStep_length_distanceSamples (rsqrt : ℚ → ℚ)
    (s : EnsembleHarmonic) (v v0 : Vec3) (t : ℚ) :
    (sampleStep rsqrt s v v0 t).distanceSamples.length
      = s.distanceSamples.length := by
  unfold sampleStep; split <;> simp [List.length_set]

theorem sampleStep_samplePeriod (rsqrt : ℚ → ℚ)
    (s : EnsembleHarmonic) (v v0 : Vec3) (t : ℚ) :
    (sampleStep rsqrt s v v0 t).samplePeriod = s.samplePeriod := by
  unfold sampleStep; split <;> rfl

theorem sampleStep_windowUpdatePeriod (rsqrt : ℚ → ℚ)
    (s : EnsembleHarmonic) (v v0 : Vec3) (t : ℚ) :
    (sampleStep rsqrt s v v0 t).windowUpdatePeriod = s.windowUpdatePeriod := by
  unfold sampleStep; split <;> rfl

/-- When the window threshold has been reached, callback equals the
sampling branch followed by the full window update written out. -/
theorem callback_fire (rexp rsqrt : ℚ → ℚ) (piQ : ℚ)
    (reduceFn : List ℚ → List ℚ) (s : EnsembleHarmonic) (v v0 : Vec3) (t : ℚ)
    (hfire : s.nextWindowUpdateTime ≤ t) :
    callback rexp rsqrt piQ reduceFn s v v0 t
      = { sampleStep rsqrt s v v0 t with
          windows :=
            (if (sampleStep rsqrt s v v0 t).windows.length
                  = (sampleStep rsqrt s v v0 t).nWindows
              then (sampleStep rsqrt s v v0 t).windows.tail
              else (sampleStep rsqrt s v v0 t).windows)
              ++ [localEstimate rexp rsqrt piQ (sampleStep rsqrt s v v0 t)]
          histogram :=
            rebuildHistogram
              ((if (sampleStep rsqrt s v v0 t).windows.length
                    = (sampleStep rsqrt s v v0 t).nWindows
                then (sampleStep rsqrt s v v0 t).windows.tail
                else (sampleStep rsqrt s v v0 t).windows)
                ++ [localEstimate rexp rsqrt piQ (sampleStep rsqrt s v v0 t)])
              (sampleStep rsqrt s v v0 t).experimental
              (sampleStep rsqrt s v v0 t).histogram
          nextWindowUpdateTime :=
            (sampleStep rsqrt s v v0 t).nextWindowUpdateTime
              + (sampleStep rsqrt s v v0 t).windowUpdatePeriod
          currentWindow := (sampleStep rsqrt s v v0 t).currentWindow + 1
          currentSample := 0
          nextSampleTime := t + (sampleStep rsqrt s v v0 t).samplePeriod } := by
  unfold callback windowStepAux
  rw [if_pos (by rw [sampleStep_nextWindowUpdateTime]; exact hfire)]

/-! The sliding-window bookkeeping of the window-update branch. -/

theorem drop_window_step (ws : List (List ℚ)) (w : List ℚ) (nW : ℕ)
    (hn : 0 < nW) :
    (if (ws.drop (ws.length - nW)).length = nW then (ws.drop (ws.length - nW)).tail
      else ws.drop (ws.length - nW)) ++ [w]
      = (ws ++ [w]).drop ((ws ++ [w]).length - nW) := by
  have happ : (ws ++ [w]).length = ws.length + 1 := by
    simp [List.length_append]
  by_cases h : nW ≤ ws.length
  · have hlen : (ws.drop (ws.length - nW)).length = nW := by
      rw [List.length_drop]; omega
    rw [if_pos hlen, List.tail_drop]
    have h1 : (ws ++ [w]).length - nW = ws.length - nW + 1 := by omega
    rw [h1, List.drop_append_of_le_length (by omega)]
  · have hlt : ws.length < nW := not_le.mp h
    have hlen : ¬(ws.drop (ws.length - nW)).length = nW := by
      rw [List.length_drop]; omega
    have h0 : ws.length - nW = 0 := by omega
    have h0' : (ws ++ [w]).length - nW = 0 := by omega
    rw [if_neg hlen, h0, h0', List.drop_zero, List.drop_zero]

theorem stepTrace_spec (rexp rsqrt : ℚ → ℚ) (piQ : ℚ)
    (reduceFn : List ℚ → List ℚ) (s : EnsembleHarmonic) (v v0 : Vec3) (t : ℚ)
    (nW : ℕ) (hn : 0 < nW) (hW : s.nWindows = nW) (ws : List (List ℚ))
    (hws : s.windows = ws.drop (ws.length - nW))
    (hcw : s.currentWindow = ws.length) :
    (windowStepAux rexp rsqrt piQ reduceFn (sampleStep rsqrt s v v0 t) t).1.nWindows = nW ∧
    (windowStepAux rexp rsqrt piQ reduceFn (sampleStep rsqrt s v v0 t) t).1.windows
      = (ws ++ (windowStepAux rexp rsqrt piQ reduceFn (sampleStep rsqrt s v v0 t) t).2.toList).drop
          ((ws ++ (windowStepAux rexp rsqrt piQ reduceFn (sampleStep rsqrt s v v0 t) t).2.toList).length - nW) ∧
    (windowStepAux rexp rsqrt piQ reduceFn (sampleStep rsqrt s v v0 t) t).1.currentWindow
      = (ws ++ (windowStepAux rexp rsqrt piQ reduceFn (sampleStep rsqrt s v v0 t) t).2.toList).length := by
  have e1 : (sampleStep rsqrt s v v0 t).windows = s.windows := sampleStep_windows ..
  have e2 : (sampleStep rsqrt s v v0 t).currentWindow = s.currentWindow :=
    sampleStep_currentWindow ..
  have e3 : (sampleStep rsqrt s v v0 t).nWindows = s.nWindows := sampleStep_nWindows ..
  unfold windowStepAux
  by_cases hf : (sampleStep rsqrt s v v0 t).nextWindowUpdateTime ≤ t
  · rw [if_pos hf]
    simp only [Option.toList_some]
    refine ⟨by simpa using (e3.trans hW), ?_, ?_⟩
    · show (if (sampleStep rsqrt s v v0 t).windows.length
            = (sampleStep rsqrt s v v0 t).nWindows
          then (sampleStep rsqrt s v v0 t).windows.tail
          else (sampleStep rsqrt s v v0 t).windows)
            ++ [localEstimate rexp rsqrt piQ (sampleStep rsqrt s v v0 t)]
          = _
      rw [e1, e3, hW, hws]
      exact drop_window_step ws _ nW hn
    · show (sampleStep rsqrt s v v0 t).currentWindow + 1 = _
      rw [e2, hcw]
      simp [List.length_append]
  · rw [if_neg hf]
    simp only [Option.toList_none, List.append_nil]
    exact ⟨e3.trans hW, e1.trans hws, e2.trans hcw⟩

theorem runTrace_fst (rexp rsqrt : ℚ → ℚ) (piQ : ℚ)
    (reduceFn : List ℚ → List ℚ) :
    ∀ (inputs : List (Vec3 × Vec3 × ℚ)) (s : EnsembleHarmonic),
      (runTrace rexp rsqrt piQ reduceFn s inputs).1
        = run rexp rsqrt piQ reduceFn s inputs := by
  intro inputs
  induction inputs with
  | nil => intro s; rfl
  | cons p ps ih =>
      intro s
      simp only [runTrace, run]
      exact ih _

theorem runTrace_spec (rexp rsqrt : ℚ → ℚ) (piQ : ℚ)
    (reduceFn : List ℚ → List ℚ) (nW : ℕ) (hn : 0 < nW) :
    ∀ (inputs : List (Vec3 × Vec3 × ℚ)) (s : EnsembleHarmonic)
      (ws : List (List ℚ)),
      s.nWindows = nW →
      s.windows = ws.drop (ws.length - nW) →
      s.currentWindow = ws.length →
      (runTrace rexp rsqrt piQ reduceFn s inputs).1.nWindows = nW ∧
      (runTrace rexp rsqrt piQ reduceFn s inputs).1.windows
        = (ws ++ (runTrace rexp rsqrt piQ reduceFn s inputs).2).drop
            ((ws ++ (runTrace rexp rsqrt piQ reduceFn s inputs).2).length - nW) ∧
      (runTrace rexp rsqrt piQ reduceFn s inputs).1.currentWindow
        = (ws ++ (runTrace rexp rsqrt piQ reduceFn s inputs).2).length := by
  intro inputs
  induction inputs with
  | nil =>
      intro s ws hW hws hcw
      simp only [runTrace, List.append_nil]
      exact ⟨hW, hws, hcw⟩
  | cons p ps ih =>
      intro s ws hW hws hcw
      obtain ⟨h1, h2, h3⟩ :=
        stepTrace_spec rexp rsqrt piQ reduceFn s p.1 p.2.1 p.2.2 nW hn hW ws hws hcw
      obtain ⟨g1, g2, g3⟩ :=
        ih (windowStepAux rexp rsqrt piQ reduceFn (sampleStep rsqrt s p.1 p.2.1 p.2.2) p.2.2).1
          (ws ++ (windowStepAux rexp rsqrt piQ reduceFn (sampleStep rsqrt s p.1 p.2.1 p.2.2) p.2.2).2.toList)
          h1 h2 h3
      simp only [runTrace]
      refine ⟨g1, ?_, ?_⟩
      · rw [g2, List.append_assoc]
      · rw [g3, List.append_assoc]

/-! Claim theorems. -/

/-- Claim C5: for any engine built by the constructor and driven through
any sequence of callback calls, computeForce returns the zero force
vector for every input while fewer than nWindows window-update cycles
have completed (currentWindow < nWindows). -/
theorem calculate_warmup_zero (nbins : ℕ) (min_dist max_dist : ℚ)
    (experimental : List ℚ) (nsamples : ℕ) (sample_period : ℚ) (nwindows : ℕ)
    (window_update_period K sigma : ℚ) (rexp rsqrt : ℚ → ℚ) (piQ : ℚ)
    (reduceFn : List ℚ → List ℚ) (inputs : List (Vec3 × Vec3 × ℚ))
    (v v0 : Vec3) (t : ℚ) (hn : 0 < nwindows)
    (hcw : (run rexp rsqrt piQ reduceFn
        (EnsembleHarmonic.init nbins min_dist max_dist experimental nsamples
          sample_period nwindows window_update_period K sigma) inputs).currentWindow
      < nwindows) :
    calculate rexp rsqrt piQ
      (run rexp rsqrt piQ reduceFn
        (EnsembleHarmonic.init nbins min_dist max_dist experimental nsamples
          sample_period nwindows window_update_period K sigma) inputs) v v0 t
      = vzero := by
  obtain ⟨h1, h2, h3⟩ :=
    runTrace_spec rexp rsqrt piQ reduceFn nwindows hn inputs
      (EnsembleHarmonic.init nbins min_dist max_dist experimental nsamples
        sample_period nwindows window_update_period K sigma) [] rfl (by simp [EnsembleHarmonic.init]) rfl
  rw [runTrace_fst] at h1 h2 h3
  simp only [List.nil_append] at h2 h3
  have hne : ¬((run rexp rsqrt piQ reduceFn
      (EnsembleHarmonic.init nbins min_dist max_dist experimental nsamples
        sample_period nwindows window_update_period K sigma) inputs).windows.length
    = (run rexp rsqrt piQ reduceFn
      (EnsembleHarmonic.init nbins min_dist max_dist experimental nsamples
        sample_period nwindows window_update_period K sigma) inputs).nWindows) := by
    rw [h1, h2, List.length_drop]
    rw [h3] at hcw
    omega
  unfold calculate
  rw [if_neg hne]

/-- Claim C5 witness: a concrete engine with nwindows = 1 and no callback
calls is still warming up and returns the zero force. -/
theorem calculate_warmup_zero_witness :
    0 < 1 ∧
    (run rexpC rsqrtC piC reduceC
      (EnsembleHarmonic.init 1 0 1 [0] 1 1 1 1 1 1) []).currentWindow < 1 ∧
    calculate rexpC rsqrtC piC
      (run rexpC rsqrtC piC reduceC
        (EnsembleHarmonic.init 1 0 1 [0] 1 1 1 1 1 1) []) vC v0C 0 = vzero :=
  ⟨Nat.one_pos, Nat.one_pos,
    calculate_warmup_zero 1 0 1 [0] 1 1 1 1 1 1 rexpC rsqrtC piC reduceC []
      vC v0C 0 Nat.one_pos Nat.one_pos⟩

/-- Claim C6: whenever the current and reference positions coincide,
computeForce returns the zero force vector without dividing by the norm,
for every engine state and time, given only that the sqrt model sends 0
to 0 as the real sqrt does. -/
theorem calculate_zero_distance (rexp rsqrt : ℚ → ℚ) (piQ : ℚ)
    (s : EnsembleHarmonic) (v : Vec3) (t : ℚ) (h0 : rsqrt 0 = 0) :
    calculate rexp rsqrt piQ s v v t = vzero := by
  have hd : vdot (vsub v v) (vsub v v) = 0 := by
    simp [vsub, vdot]
  unfold calculate
  rw [hd, h0]
  simp

/-- Claim C6 witness: concrete coinciding positions give zero force. -/
theorem calculate_zero_distance_witness :
    rsqrtC 0 = 0 ∧
    calculate rexpC rsqrtC piC
      (EnsembleHarmonic.init 1 0 1 [0] 1 1 1 1 1 1) vC vC 0 = vzero :=
  ⟨rfl,
    calculate_zero_distance rexpC rsqrtC piC
      (EnsembleHarmonic.init 1 0 1 [0] 1 1 1 1 1 1) vC 0 rfl⟩

/-- Claim C7: for an engine built by the constructor and driven through
any callback sequence (with the produced window histograms collected as a
trace), the stored window history is exactly the last min(k, nWindows)
produced histograms in production order, where k is the number of
window-update cycles completed; in particular the length is min(k,
nWindows), eviction is strictly FIFO, and entries stay ordered oldest to
newest. -/
theorem window_history_fifo (nbins : ℕ) (min_dist max_dist : ℚ)
    (experimental : List ℚ) (nsamples : ℕ) (sample_period : ℚ) (nwindows : ℕ)
    (window_update_period K sigma : ℚ) (rexp rsqrt : ℚ → ℚ) (piQ : ℚ)
    (reduceFn : List ℚ → List ℚ) (inputs : List (Vec3 × Vec3 × ℚ))
    (hn : 0 < nwindows) :
    (runTrace rexp rsqrt piQ reduceFn
        (EnsembleHarmonic.init nbins min_dist max_dist experimental nsamples
          sample_period nwindows window_update_period K sigma) inputs).1.windows
      = (runTrace rexp rsqrt piQ reduceFn
          (EnsembleHarmonic.init nbins min_dist max_dist experimental nsamples
            sample_period nwindows window_update_period K sigma) inputs).2.drop
          ((runTrace rexp rsqrt piQ reduceFn
            (EnsembleHarmonic.init nbins min_dist max_dist experimental nsamples
              sample_period nwindows window_update_period K sigma) inputs).2.length
            - nwindows) ∧
    (runTrace rexp rsqrt piQ reduceFn
        (EnsembleHarmonic.init nbins min_dist max_dist experimental nsamples
          sample_period nwindows window_update_period K sigma) inputs).1.windows.length
      = min (runTrace rexp rsqrt piQ reduceFn
          (EnsembleHarmonic.init nbins min_dist max_dist experimental nsamples
            sample_period nwindows window_update_period K sigma) inputs).2.length
          nwindows ∧
    (runTrace rexp rsqrt piQ reduceFn
        (EnsembleHarmonic.init nbins min_dist max_dist experimental nsamples
          sample_period nwindows window_update_period K sigma) inputs).1.currentWindow
      = (runTrace rexp rsqrt piQ reduceFn
          (EnsembleHarmonic.init nbins min_dist max_dist experimental nsamples
            sample_period nwindows window_update_period K sigma) inputs).2.length := by
  obtain ⟨h1, h2, h3⟩ :=
    runTrace_spec rexp rsqrt piQ reduceFn nwindows hn inputs
      (EnsembleHarmonic.init nbins min_dist max_dist experimental nsamples
        sample_period nwindows window_update_period K sigma) [] rfl (by simp [EnsembleHarmonic.init]) rfl
  simp only [List.nil_append] at h2 h3
  refine ⟨h2, ?_, h3⟩
  rw [h2, List.length_drop]
  omega

/-- Claim C7 witness: a concrete two-call run with nwindows = 1. -/
theorem window_history_fifo_witness :
    0 < 1 ∧
    ((runTrace rexpC rsqrtC piC reduceC
        (EnsembleHarmonic.init 1 0 1 [0] 1 1 1 1 1 1)
        [(vC, v0C, 1), (vC, v0C, 2)]).1.windows
      = (runTrace rexpC rsqrtC piC reduceC
          (EnsembleHarmonic.init 1 0 1 [0] 1 1 1 1 1 1)
          [(vC, v0C, 1), (vC, v0C, 2)]).2.drop
          ((runTrace rexpC rsqrtC piC reduceC
            (EnsembleHarmonic.init 1 0 1 [0] 1 1 1 1 1 1)
            [(vC, v0C, 1), (vC, v0C, 2)]).2.length - 1) ∧
    (runTrace rexpC rsqrtC piC reduceC
        (EnsembleHarmonic.init 1 0 1 [0] 1 1 1 1 1 1)
        [(vC, v0C, 1), (vC, v0C, 2)]).1.windows.length
      = min (runTrace rexpC rsqrtC piC reduceC
          (EnsembleHarmonic.init 1 0 1 [0] 1 1 1 1 1 1)
          [(vC, v0C, 1), (vC, v0C, 2)]).2.length 1 ∧
    (runTrace rexpC rsqrtC piC reduceC
        (EnsembleHarmonic.init 1 0 1 [0] 1 1 1 1 1 1)
        [(vC, v0C, 1), (vC, v0C, 2)]).1.currentWindow
      = (runTrace rexpC rsqrtC piC reduceC
          (EnsembleHarmonic.init 1 0 1 [0] 1 1 1 1 1 1)
          [(vC, v0C, 1), (vC, v0C, 2)]).2.length) :=
  ⟨Nat.one_pos,
    window_history_fifo 1 0 1 [0] 1 1 1 1 1 1 rexpC rsqrtC piC reduceC
      [(vC, v0C, 1), (vC, v0C, 2)] Nat.one_pos⟩

/-- Claim C10: when a window-update cycle fires, the Gaussian blur is fed
the entire fixed-length sample buffer (length exactly nSamples); the
appended window is the blur of that full buffer, and the update resets
only the cursor, leaving the buffer contents in place. -/
theorem window_full_buffer (rexp rsqrt : ℚ → ℚ) (piQ : ℚ)
    (reduceFn : List ℚ → List ℚ) (s : EnsembleHarmonic) (v v0 : Vec3) (t : ℚ)
    (hlen : s.distanceSamples.length = s.nSamples)
    (hfire : s.nextWindowUpdateTime ≤ t) :
    (sampleStep rsqrt s v v0 t).distanceSamples.length = s.nSamples ∧
    (callback rexp rsqrt piQ reduceFn s v v0 t).windows.getLast?
      = some (localEstimate rexp rsqrt piQ (sampleStep rsqrt s v v0 t)) ∧
    (callback rexp rsqrt piQ reduceFn s v v0 t).distanceSamples
      = (sampleStep rsqrt s v v0 t).distanceSamples ∧
    (callback rexp rsqrt piQ reduceFn s v v0 t).currentSample = 0 := by
  have hl : (sampleStep rsqrt s v v0 t).distanceSamples.length = s.nSamples :=
    (sampleStep_length_distanceSamples ..).trans hlen
  rw [callback_fire rexp rsqrt piQ reduceFn s v v0 t hfire]
  exact ⟨hl, List.getLast?_concat _, rfl, rfl⟩

/-- Claim C10 witness: a concrete firing window update. -/
theorem window_full_buffer_witness :
    (EnsembleHarmonic.init 1 0 1 [0] 1 1 1 1 1 1).distanceSamples.length
      = (EnsembleHarmonic.init 1 0 1 [0] 1 1 1 1 1 1).nSamples ∧
    (EnsembleHarmonic.init 1 0 1 [0] 1 1 1 1 1 1).nextWindowUpdateTime ≤ 1 ∧
    ((sampleStep rsqrtC (EnsembleHarmonic.init 1 0 1 [0] 1 1 1 1 1 1) vC v0C 1).distanceSamples.length
        = (EnsembleHarmonic.init 1 0 1 [0] 1 1 1 1 1 1).nSamples ∧
      (callback rexpC rsqrtC piC reduceC
          (EnsembleHarmonic.init 1 0 1 [0] 1 1 1 1 1 1) vC v0C 1).windows.getLast?
        = some (localEstimate rexpC rsqrtC piC
            (sampleStep rsqrtC (EnsembleHarmonic.init 1 0 1 [0] 1 1 1 1 1 1) vC v0C 1)) ∧
      (callback rexpC rsqrtC piC reduceC
          (EnsembleHarmonic.init 1 0 1 [0] 1 1 1 1 1 1) vC v0C 1).distanceSamples
        = (sampleStep rsqrtC (EnsembleHarmonic.init 1 0 1 [0] 1 1 1 1 1 1) vC v0C 1).distanceSamples ∧
      (callback rexpC rsqrtC piC reduceC
          (EnsembleHarmonic.init 1 0 1 [0] 1 1 1 1 1 1) vC v0C 1).currentSample = 0) :=
  ⟨rfl, by norm_num [EnsembleHarmonic.init],
    window_full_buffer rexpC rsqrtC piC reduceC
      (EnsembleHarmonic.init 1 0 1 [0] 1 1 1 1 1 1) vC v0C 1 rfl
      (by norm_num [EnsembleHarmonic.init])⟩

/-- Claim C3: in the active regime (window history full, nonzero
separation), computeForce returns exactly the force of the
specification: linear restoring force beyond maxDist, linear below
minDist, otherwise the histogram-weighted Gaussian derivative sum with
normConst = sqrt(2 pi) * sigma^3, the scalar projected onto the
separation direction as f / norm(rdiff) * rdiff. -/
theorem calculate_force_formula (rexp rsqrt : ℚ → ℚ) (piQ : ℚ)
    (s : EnsembleHarmonic) (v v0 : Vec3) (t : ℚ)
    (hw : s.windows.length = s.nWindows)
    (hR : rsqrt (vdot (vsub v v0) (vsub v v0)) ≠ 0) :
    calculate rexp rsqrt piQ s v v0 t =
      smul
        ((if rsqrt (vdot (vsub v v0) (vsub v v0)) > s.maxDist then
            s.k * (s.maxDist - rsqrt (vdot (vsub v v0) (vsub v v0)))
          else if rsqrt (vdot (vsub v v0) (vsub v v0)) < s.minDist then
            -s.k * (s.minDist - rsqrt (vdot (vsub v v0) (vsub v v0)))
          else
            -s.k *
              ((List.range s.histogram.length).map (fun (n : ℕ) =>
                s.histogram.getD n 0 *
                  (((n : ℚ) * s.binWidth - rsqrt (vdot (vsub v v0) (vsub v v0))) /
                    (rsqrt (2 * piQ) * s.sigma ^ 3)) *
                  rexp ((-(1 / 2 : ℚ)) *
                    ((((n : ℚ) * s.binWidth - rsqrt (vdot (vsub v v0) (vsub v v0))) /
                        s.sigma) ^ 2)))).sum) /
          rsqrt (vdot (vsub v v0) (vsub v v0)))
        (vsub v v0) := by
  unfold calculate
  rw [if_pos hw, if_pos hR]
  congr 2
  by_cases h1 : rsqrt (vdot (vsub v v0) (vsub v v0)) > s.maxDist
  · rw [if_pos h1, if_pos h1]
  · rw [if_neg h1, if_neg h1]
    by_cases h2 : rsqrt (vdot (vsub v v0) (vsub v v0)) < s.minDist
    · rw [if_pos h2, if_pos h2]
    · rw [if_neg h2, if_neg h2]
      rw [foldl_add_eq_sum
        (fun (n : ℕ) =>
          s.histogram.getD n 0 *
            ((n : ℚ) * s.binWidth - rsqrt (vdot (vsub v v0) (vsub v v0))) /
            (rsqrt (2 * piQ) * s.sigma ^ 3) *
            rexp ((-(1 / 2 : ℚ)) *
              ((((n : ℚ) * s.binWidth - rsqrt (vdot (vsub v v0) (vsub v v0))) /
                  s.sigma) ^ 2)))
        (List.range s.histogram.length) 0, zero_add]
      have hfun :
          (fun (n : ℕ) =>
            s.histogram.getD n 0 *
              ((n : ℚ) * s.binWidth - rsqrt (vdot (vsub v v0) (vsub v v0))) /
              (rsqrt (2 * piQ) * s.sigma ^ 3) *
              rexp ((-(1 / 2 : ℚ)) *
                ((((n : ℚ) * s.binWidth - rsqrt (vdot (vsub v v0) (vsub v v0))) /
                    s.sigma) ^ 2)))
          = (fun (n : ℕ) =>
            s.histogram.getD n 0 *
              (((n : ℚ) * s.binWidth - rsqrt (vdot (vsub v v0) (vsub v v0))) /
                (rsqrt (2 * piQ) * s.sigma ^ 3)) *
              rexp ((-(1 / 2 : ℚ)) *
                ((((n : ℚ) * s.binWidth - rsqrt (vdot (vsub v v0) (vsub v v0))) /
                    s.sigma) ^ 2))) := by
        funext n
        ring
      rw [hfun]

/-- Claim C3 witness: a concrete active-regime state with a full window
history and nonzero separation. -/
theorem calculate_force_formula_witness :
    sC3.windows.length = sC3.nWindows ∧
    rsqrtC (vdot (vsub vC v0C) (vsub vC v0C)) ≠ 0 ∧
    calculate rexpC rsqrtC piC sC3 vC v0C 0 =
      smul
        ((if rsqrtC (vdot (vsub vC v0C) (vsub vC v0C)) > sC3.maxDist then
            sC3.k * (sC3.maxDist - rsqrtC (vdot (vsub vC v0C) (vsub vC v0C)))
          else if rsqrtC (vdot (vsub vC v0C) (vsub vC v0C)) < sC3.minDist then
            -sC3.k * (sC3.minDist - rsqrtC (vdot (vsub vC v0C) (vsub vC v0C)))
          else
            -sC3.k *
              ((List.range sC3.histogram.length).map (fun (n : ℕ) =>
                sC3.histogram.getD n 0 *
                  (((n : ℚ) * sC3.binWidth - rsqrtC (vdot (vsub vC v0C) (vsub vC v0C))) /
                    (rsqrtC (2 * piC) * sC3.sigma ^ 3)) *
                  rexpC ((-(1 / 2 : ℚ)) *
                    ((((n : ℚ) * sC3.binWidth - rsqrtC (vdot (vsub vC v0C) (vsub vC v0C))) /
                        sC3.sigma) ^ 2)))).sum) /
          rsqrtC (vdot (vsub vC v0C) (vsub vC v0C)))
        (vsub vC v0C) :=
  ⟨rfl, by norm_num [rsqrtC, vC, v0C, vsub, vdot],
    calculate_force_formula rexpC rsqrtC piC sC3 vC v0C 0 rfl
      (by norm_num [rsqrtC, vC, v0C, vsub, vdot])⟩

/-- Claim C4: for a nonempty sample list, every bin i of the blurred grid
equals 1/(numSamples * sqrt(2 pi) * sigma) times the sum over samples of
exp(-(x_i - sample)^2 / (2 sigma^2)), with x_i = i * (maxDist -
minDist)/N, N the grid length; the sqrt model is only required to
satisfy sqrt(2 pi sigma^2) = sqrt(2 pi) * sigma, as the real sqrt does
for nonnegative sigma. -/
theorem blur_formula (rexp rsqrt : ℚ → ℚ) (piQ min_dist max_dist sigma : ℚ)
    (distances grid : List ℚ) (_hne : distances ≠ [])
    (hsq : rsqrt (2 * piQ * sigma * sigma) = rsqrt (2 * piQ) * sigma)
    (i : ℕ) (hi : i < grid.length) :
    (blurToGrid rexp rsqrt piQ min_dist max_dist sigma distances grid).getD i 0
      = 1 / ((distances.length : ℚ) * rsqrt (2 * piQ) * sigma) *
          (distances.map (fun d =>
            rexp (-(((i : ℚ) * ((max_dist - min_dist) / (grid.length : ℚ)) - d) ^ 2) /
              (2 * sigma ^ 2)))).sum := by
  unfold blurToGrid
  rw [List.getD_eq_getElem?_getD, List.getElem?_map, List.getElem?_range hi]
  simp only [Option.map_some', Option.getD_some]
  rw [foldl_add_eq_sum
    (fun distance =>
      (1 / ((distances.length : ℚ) * rsqrt (2 * piQ * sigma * sigma))) *
        rexp ((-(((i : ℚ) * ((max_dist - min_dist) / (grid.length : ℚ)) - distance) *
                  ((i : ℚ) * ((max_dist - min_dist) / (grid.length : ℚ)) - distance))) *
              (1 / (2 * sigma * sigma))))
    distances 0, zero_add]
  have harg : ∀ d : ℚ,
      (-(((i : ℚ) * ((max_dist - min_dist) / (grid.length : ℚ)) - d) *
          ((i : ℚ) * ((max_dist - min_dist) / (grid.length : ℚ)) - d))) *
        (1 / (2 * sigma * sigma))
      = -(((i : ℚ) * ((max_dist - min_dist) / (grid.length : ℚ)) - d) ^ 2) /
          (2 * sigma ^ 2) := by
    intro d
    ring
  simp only [harg]
  rw [List.sum_map_mul_left, hsq]
  ring

/-- Claim C4 witness: a concrete blur evaluation with sigma = 1, for
which the sqrt property holds for any sqrt model. -/
theorem blur_formula_witness :
    ([(1 : ℚ)] ≠ []) ∧
    rsqrtC (2 * piC * 1 * 1) = rsqrtC (2 * piC) * 1 ∧
    (0 : ℕ) < [(0 : ℚ)].length ∧
    (blurToGrid rexpC rsqrtC piC 0 1 1 [1] [0]).getD 0 0
      = 1 / (([(1 : ℚ)].length : ℚ) * rsqrtC (2 * piC) * 1) *
          ([(1 : ℚ)].map (fun d =>
            rexpC (-((((0 : ℕ) : ℚ) * ((1 - 0) / (([(0 : ℚ)].length : ℚ))) - d) ^ 2) /
              (2 * 1 ^ 2)))).sum :=
  ⟨by decide, by norm_num [rsqrtC], by decide,
    blur_formula rexpC rsqrtC piC 0 1 1 [1] [0] (by decide)
      (by norm_num [rsqrtC]) 0 (by decide)⟩

/-- Claim C1 counterexample: a two-window run with reference
distribution [1] ends with bias histogram value 0 at bin 0, while the
claimed rebuild rule (sum of window bins minus the reference once) gives
1; the code subtracts the reference once per stored window, not once per
bin. -/
theorem histogram_rebuild_counterexample :
    ¬((run rexpC rsqrtC piC reduceC (EnsembleHarmonic.init 1 0 1 [1] 1 1 2 1 1 1)
        [(vC, v0C, 1), (vC, v0C, 2)]).histogram.getD 0 0
      = ((run rexpC rsqrtC piC reduceC (EnsembleHarmonic.init 1 0 1 [1] 1 1 2 1 1 1)
          [(vC, v0C, 1), (vC, v0C, 2)]).windows.map (fun w => w.getD 0 0)).sum
        - (run rexpC rsqrtC piC reduceC (EnsembleHarmonic.init 1 0 1 [1] 1 1 2 1 1 1)
            [(vC, v0C, 1), (vC, v0C, 2)]).experimental.getD 0 0) := by
  norm_num [run, callback, sampleStep, windowStepAux, EnsembleHarmonic.init,
    localEstimate, blurToGrid, rebuildHistogram, applyWindow, setLoop,
    rexpC, rsqrtC, piC, reduceC, vC, v0C, vsub, vdot]

/-- Claim C1 amended: after every window-update cycle, for each bin i,
BiasHistogram[i] equals the sum over stored windows of that window bin i
minus (number of stored windows) times ReferenceDistribution[i]: the
reference is subtracted once per stored window. -/
theorem histogram_rebuild_amended (rexp rsqrt : ℚ → ℚ) (piQ : ℚ)
    (reduceFn : List ℚ → List ℚ) (s : EnsembleHarmonic) (v v0 : Vec3) (t : ℚ)
    (hh : s.histogram.length = s.nBins)
    (hwin : ∀ w ∈ s.windows, w.length = s.nBins)
    (hfire : s.nextWindowUpdateTime ≤ t)
    (i : ℕ) (hi : i < s.nBins) :
    (callback rexp rsqrt piQ reduceFn s v v0 t).histogram.getD i 0
      = ((callback rexp rsqrt piQ reduceFn s v v0 t).windows.map
          (fun w => w.getD i 0)).sum
        - ((callback rexp rsqrt piQ reduceFn s v v0 t).windows.length : ℚ) *
            s.experimental.getD i 0 := by
  rw [callback_fire rexp rsqrt piQ reduceFn s v v0 t hfire]
  dsimp only
  have hWlen : ∀ w ∈
      (if (sampleStep rsqrt s v v0 t).windows.length
            = (sampleStep rsqrt s v v0 t).nWindows
        then (sampleStep rsqrt s v v0 t).windows.tail
        else (sampleStep rsqrt s v v0 t).windows)
        ++ [localEstimate rexp rsqrt piQ (sampleStep rsqrt s v v0 t)],
      w.length = s.nBins := by
    intro w hw
    rcases List.mem_append.mp hw with h | h
    · have hmem : w ∈ (sampleStep rsqrt s v v0 t).windows := by
        revert h
        split
        · exact fun h => List.mem_of_mem_tail h
        · exact fun h => h
      rw [sampleStep_windows] at hmem
      exact hwin w hmem
    · rw [List.mem_singleton] at h
      subst h
      rw [localEstimate_length, sampleStep_nBins]
  unfold rebuildHistogram
  rw [foldl_applyWindow_getD (sampleStep rsqrt s v v0 t).experimental s.nBins i hi
      _ _ hWlen (by rw [List.length_map, sampleStep_histogram, hh]),
    map_const_zero_getD, zero_add, sum_map_sub_const, sampleStep_experimental]

/-- Claim C1 amended witness: a concrete window update on a state with
one stored window and reference distribution [2]. -/
theorem histogram_rebuild_amended_witness :
    sC1.histogram.length = sC1.nBins ∧
    (∀ w ∈ sC1.windows, w.length = sC1.nBins) ∧
    sC1.nextWindowUpdateTime ≤ 0 ∧
    (0 : ℕ) < sC1.nBins ∧
    (callback rexpC rsqrtC piC reduceC sC1 vC v0C 0).histogram.getD 0 0
      = ((callback rexpC rsqrtC piC reduceC sC1 vC v0C 0).windows.map
          (fun w => w.getD 0 0)).sum
        - ((callback rexpC rsqrtC piC reduceC sC1 vC v0C 0).windows.length : ℚ) *
            sC1.experimental.getD 0 0 :=
  ⟨rfl, by decide, by norm_num [sC1], Nat.one_pos,
    histogram_rebuild_amended rexpC rsqrtC piC reduceC sC1 vC v0C 0 rfl
      (by decide) (by norm_num [sC1]) 0 Nat.one_pos⟩

/-- Claim C2 (code bug): driving one window update with the doubling
reduction function receive = 2 * send, the histogram appended to the
window history is the local single-replica estimate, and the reduced
histogram written by the reduction differs from it: the C++ discards
temp_window, the target of ensemble.reduce, without reading it. -/
theorem reduction_result_discarded :
    (callback rexpC rsqrtC piC reduce2 (EnsembleHarmonic.init 1 0 1 [0] 1 1 1 1 1 1)
        vC v0C 1).windows.getLast?
      = some (localEstimate rexpC rsqrtC piC
          (sampleStep rsqrtC (EnsembleHarmonic.init 1 0 1 [0] 1 1 1 1 1 1) vC v0C 1)) ∧
    reducedEstimate rexpC rsqrtC piC reduce2
        (sampleStep rsqrtC (EnsembleHarmonic.init 1 0 1 [0] 1 1 1 1 1 1) vC v0C 1)
      ≠ localEstimate rexpC rsqrtC piC
          (sampleStep rsqrtC (EnsembleHarmonic.init 1 0 1 [0] 1 1 1 1 1 1) vC v0C 1) := by
  constructor
  · norm_num [callback, sampleStep, windowStepAux, EnsembleHarmonic.init,
      localEstimate, blurToGrid, rexpC, rsqrtC, piC, reduce2, vC, v0C, vsub, vdot]
  · norm_num [reducedEstimate, sampleStep, EnsembleHarmonic.init,
      localEstimate, blurToGrid, rexpC, rsqrtC, piC, reduce2, vC, v0C, vsub, vdot]

/-- Claim C8 counterexample: with windowUpdatePeriod 1 and first
threshold 1, a callback at time 5 fires the window update, and the new
window threshold is 2 (previous + period), not 6 (now + period). -/
theorem timing_reset_counterexample :
    (callback rexpC rsqrtC piC reduceC (EnsembleHarmonic.init 1 0 1 [0] 1 1 1 1 1 1)
        vC v0C 5).currentWindow
      = (EnsembleHarmonic.init 1 0 1 [0] 1 1 1 1 1 1).currentWindow + 1 ∧
    ¬((callback rexpC rsqrtC piC reduceC (EnsembleHarmonic.init 1 0 1 [0] 1 1 1 1 1 1)
        vC v0C 5).nextWindowUpdateTime
      = 5 + (EnsembleHarmonic.init 1 0 1 [0] 1 1 1 1 1 1).windowUpdatePeriod) := by
  constructor
  · norm_num [callback, sampleStep, windowStepAux, EnsembleHarmonic.init,
      rexpC, rsqrtC, piC, reduceC, vC, v0C, vsub, vdot]
  · norm_num [callback, sampleStep, windowStepAux, EnsembleHarmonic.init,
      rexpC, rsqrtC, piC, reduceC, vC, v0C, vsub, vdot]

/-- Claim C8 amended: after a sampling-cycle firing, nextSampleTime
advances from the previous threshold (previous + samplePeriod); after a
window-update firing, nextWindowUpdateTime advances from the previous
threshold (previous + windowUpdatePeriod), while nextSampleTime alone is
re-anchored to the current time (now + samplePeriod). -/
theorem timing_update_amended (rexp rsqrt : ℚ → ℚ) (piQ : ℚ)
    (reduceFn : List ℚ → List ℚ) (s : EnsembleHarmonic) (v v0 : Vec3) (t : ℚ)
    (hs : s.nextSampleTime ≤ t) (hw : s.nextWindowUpdateTime ≤ t) :
    (sampleStep rsqrt s v v0 t).nextSampleTime
      = s.nextSampleTime + s.samplePeriod ∧
    (callback rexp rsqrt piQ reduceFn s v v0 t).nextWindowUpdateTime
      = s.nextWindowUpdateTime + s.windowUpdatePeriod ∧
    (callback rexp rsqrt piQ reduceFn s v v0 t).nextSampleTime
      = t + s.samplePeriod := by
  refine ⟨?_, ?_, ?_⟩
  · unfold sampleStep
    rw [if_pos hs]
  · rw [callback_fire rexp rsqrt piQ reduceFn s v v0 t hw]
    dsimp only
    rw [sampleStep_nextWindowUpdateTime, sampleStep_windowUpdatePeriod]
  · rw [callback_fire rexp rsqrt piQ reduceFn s v v0 t hw]
    dsimp only
    rw [sampleStep_samplePeriod]

/-- Claim C8 amended witness: a concrete call at time 5 firing both
cycles. -/
theorem timing_update_amended_witness :
    (EnsembleHarmonic.init 1 0 1 [0] 1 1 1 1 1 1).nextSampleTime ≤ 5 ∧
    (EnsembleHarmonic.init 1 0 1 [0] 1 1 1 1 1 1).nextWindowUpdateTime ≤ 5 ∧
    ((sampleStep rsqrtC (EnsembleHarmonic.init 1 0 1 [0] 1 1 1 1 1 1) vC v0C 5).nextSampleTime
        = (EnsembleHarmonic.init 1 0 1 [0] 1 1 1 1 1 1).nextSampleTime
          + (EnsembleHarmonic.init 1 0 1 [0] 1 1 1 1 1 1).samplePeriod ∧
      (callback rexpC rsqrtC piC reduceC (EnsembleHarmonic.init 1 0 1 [0] 1 1 1 1 1 1)
          vC v0C 5).nextWindowUpdateTime
        = (EnsembleHarmonic.init 1 0 1 [0] 1 1 1 1 1 1).nextWindowUpdateTime
          + (EnsembleHarmonic.init 1 0 1 [0] 1 1 1 1 1 1).windowUpdatePeriod ∧
      (callback rexpC rsqrtC piC reduceC (EnsembleHarmonic.init 1 0 1 [0] 1 1 1 1 1 1)
          vC v0C 5).nextSampleTime
        = 5 + (EnsembleHarmonic.init 1 0 1 [0] 1 1 1 1 1 1).samplePeriod) :=
  ⟨by norm_num [EnsembleHarmonic.init], by norm_num [EnsembleHarmonic.init],
    timing_update_amended rexpC rsqrtC piC reduceC
      (EnsembleHarmonic.init 1 0 1 [0] 1 1 1 1 1 1) vC v0C 5
      (by norm_num [EnsembleHarmonic.init]) (by norm_num [EnsembleHarmonic.init])⟩

/-- Claim C9 (code bug): with a one-slot sample buffer and two sample
firings before any window update, the second write goes past the buffer:
execution continues normally with no error signalled, the cursor reaches
2 while nSamples is 1, and the second sample is never stored (the
out-of-range write is modelled as a silent no-op; in the C++ it is
undefined behaviour through unchecked operator[]). -/
theorem sample_overflow_unchecked :
    (callback rexpC rsqrtC piC reduceC
        (callback rexpC rsqrtC piC reduceC
          (EnsembleHarmonic.init 1 0 1 [0] 1 1 1 100 1 1) vC v0C 1)
        vC v0C 2).currentSample = 2 ∧
    (callback rexpC rsqrtC piC reduceC
        (callback rexpC rsqrtC piC reduceC
          (EnsembleHarmonic.init 1 0 1 [0] 1 1 1 100 1 1) vC v0C 1)
        vC v0C 2).nSamples = 1 ∧
    (callback rexpC rsqrtC piC reduceC
        (callback rexpC rsqrtC piC reduceC
          (EnsembleHarmonic.init 1 0 1 [0] 1 1 1 100 1 1) vC v0C 1)
        vC v0C 2).distanceSamples = [1] := by
  refine ⟨?_, ?_, ?_⟩ <;>
    norm_num [callback, sampleStep, windowStepAux, EnsembleHarmonic.init,
      rexpC, rsqrtC, piC, reduceC, vC, v0C, vsub, vdot]

end plugin
